import Mathlib

/-!
Shallow embedding of the insurance-application lifecycle core of the
`busan` web application (`src/app.py`), covering:

* the `InsuranceApplication` model (columns of the SQLAlchemy model,
  `src/app.py:568-602`),
* the lifecycle evaluator `InsuranceApplication.recompute_status`
  (`src/app.py:604-619`),
* the helper `_ensure_aware` (`src/app.py:361-370`),
* the deletion branches of the `/insurance` route (`src/app.py:2033-2041`)
  and of the `/admin/insurance` route (`src/app.py:2469-2474`),
* the caller-side change detection in the `/insurance` listing loop
  (`src/app.py:2122-2128`).

Modelling conventions:

* Timestamps (`created_at`, `start_at`, `end_at`, `approved_at`, `now`) are
  integers: seconds on the local KST timeline.  KST is a fixed-offset zone
  (`gettz('Asia/Seoul')`, no DST), so instants form a linear order and
  `timedelta` arithmetic is integer addition: 2 hours = 7200 s,
  30 days = 2592000 s.
* `Date` values (`desired_start_date`, `car_registered_at`) are integers:
  day numbers on the KST calendar; `datetime.combine(d, datetime.min.time(),
  tzinfo=KST)` (midnight of `d` in KST) is `86400 * d` on the second
  timeline.
* Nullable columns are `Option`; Python truthiness tests on datetime
  columns (`if not self.start_at`, `if end_at_local`) test exactly
  `None`-ness, since `datetime` objects are always truthy.
* `datetime.now(KST)` is ambient state in Python; the embedding passes
  `now` explicitly.  The Python method mutates `self` and returns `None`;
  the embedding returns the updated record.  A raised exception
  (`datetime.combine(None, ...)` raises `TypeError`) is `Except.error`;
  the exception propagates out of `recompute_status`, so the caller never
  commits in that case.
-/

/-- The four lifecycle states of the `status` column
(`'신청','조합승인','가입','종료'`; spec names: submitted,
association_approved, enrolled, terminated), `src/app.py:582`. -/
inductive Status where
  | submitted            -- 신청
  | associationApproved  -- 조합승인
  | enrolled             -- 가입
  | terminated           -- 종료
deriving DecidableEq, Repr

/-- The forward ordering of the lifecycle (submitted < association_approved
< enrolled < terminated). -/
def Status.ord : Status → Nat
  | .submitted => 0
  | .associationApproved => 1
  | .enrolled => 2
  | .terminated => 3

/-- The `InsuranceApplication` record: the columns of the SQLAlchemy model
at `src/app.py:568-586`. -/
structure InsuranceApplication where
  id : Int
  createdAt : Int                      -- created_at
  desiredStartDate : Option Int        -- desired_start_date (a Date; nullable=False in the schema, but in-memory it is whatever upstream code set, hence Option)
  startAt : Option Int                 -- start_at
  endAt : Option Int                   -- end_at
  approvedAt : Option Int              -- approved_at
  insuredCode : Option String          -- insured_code
  contractorCode : Option String       -- contractor_code
  carPlate : Option String             -- car_plate
  vin : Option String
  carName : Option String              -- car_name
  carRegisteredAt : Option Int         -- car_registered_at (a Date)
  premium : Int
  status : Status
  memo : Option String
  insurancePolicyPath : Option String  -- insurance_policy_path
  insurancePolicyUrl : Option String   -- insurance_policy_url
  createdByMemberId : Option Int       -- created_by_member_id
  partnerGroupId : Option Int          -- partner_group_id
deriving DecidableEq, Repr

/-- Helper `_ensure_aware` (`src/app.py:361-370`): returns `None` for `None`, and
tags a tz-naive datetime with KST, otherwise returns the value unchanged.
On the integer KST timeline every stored instant is already KST-local, so
the normalisation is the identity. -/
def ensureAware (dt : Option Int) : Option Int := dt

/-- Translation of `datetime.combine(d, datetime.min.time(), tzinfo=KST)`: midnight of
the date `d` in the fixed KST zone, on the second timeline. -/
def midnightKST (d : Int) : Int := 86400 * d

/-- The exception raised inside `recompute_status`:
`datetime.combine(self.desired_start_date, ...)` raises `TypeError` when
`desired_start_date` is `None`. -/
inductive RecomputeError where
  | typeError
deriving DecidableEq, Repr

/-- Step 1 of `recompute_status` (`src/app.py:608-616`): after approval +
2 hours, move `신청`/`조합승인` to `가입`, seeding `start_at`/`end_at` from
`desired_start_date` when `start_at` is unset. -/
def recomputeStep1 (now : Int) (approvedAtLocal : Option Int)
    (s : InsuranceApplication) : Except RecomputeError InsuranceApplication :=
  if s.status = Status.submitted ∨ s.status = Status.associationApproved then
    match approvedAtLocal with
    | some t =>
      if t + 7200 ≤ now then
        let s1 := { s with status := Status.enrolled }
        if s1.startAt = none then
          match s1.desiredStartDate with
          | some d =>
            let startDate := midnightKST d
            Except.ok { s1 with startAt := some startDate,
                                endAt := some (startDate + 30 * 86400) }
          | none => Except.error RecomputeError.typeError
        else Except.ok s1
      else Except.ok s
    | none => Except.ok s
  else Except.ok s

/-- Step 2 of `recompute_status` (`src/app.py:617-619`): once the end
instant has passed, set `status = 종료`.  Note that it receives
`endAtLocal`, the value of `end_at` captured at the *start* of
`recompute_status`, not the possibly re-seeded current value. -/
def recomputeStep2 (now : Int) (endAtLocal : Option Int)
    (s : InsuranceApplication) : InsuranceApplication :=
  match endAtLocal with
  | some e => if e ≤ now then { s with status := Status.terminated } else s
  | none => s

/-- The evaluator `InsuranceApplication.recompute_status` (`src/app.py:604-619`).
`approved_at_local` and `end_at_local` are both computed from the record
*before* step 1 runs, exactly as in the source. -/
def recomputeStatus (now : Int) (s : InsuranceApplication) :
    Except RecomputeError InsuranceApplication :=
  let approvedAtLocal := ensureAware s.approvedAt
  let endAtLocal := ensureAware s.endAt
  Except.map (recomputeStep2 now endAtLocal) (recomputeStep1 now approvedAtLocal s)

/-- The Python method's return value: `recompute_status(self) -> None`
(`src/app.py:604`).  It returns `None` on every invocation — in
particular, no changed-flag. -/
def recomputeStatusReturn (now : Int) (s : InsuranceApplication) : Option Bool :=
  none

/-- The caller-side change detection in the `/insurance` listing loop
(`src/app.py:2122-2128`): remember `old_status`, call the evaluator, and
report a change iff `status` differs afterwards. -/
def callerDetectsChange (now : Int) (s s' : InsuranceApplication) : Bool :=
  s'.status ≠ s.status

/-- The `delete` branch of the `/insurance` route (`src/app.py:2033-2041`):
the row is deleted only when `approved_at` is unset (`if not
row.approved_at`); otherwise the row stays and a warning is flashed.
Returns the row left in the store. -/
def insuranceDeleteAction (row : InsuranceApplication) :
    Option InsuranceApplication :=
  if row.approvedAt = none then none else some row

/-- The `delete` branch of the `/admin/insurance` route
(`src/app.py:2469-2474`): `db.session.delete(row)` unconditionally — no
check of `approved_at`. -/
def adminInsuranceDeleteAction (row : InsuranceApplication) :
    Option InsuranceApplication :=
  none

/-- Evaluating a record through a sequence of evaluator calls, stopping at
the first raised exception (as the Python control flow does). -/
def recomputeSeq (nows : List Int) (s : InsuranceApplication) :
    Except RecomputeError InsuranceApplication :=
  nows.foldlM (fun a n => recomputeStatus n a) s

/-- The status of an evaluation result (`None` when the call raised). -/
def statusOf (r : Except RecomputeError InsuranceApplication) : Option Status :=
  match r with
  | Except.ok a => some a.status
  | Except.error _ => none

/-- A freshly submitted application, as created by the `/insurance`
`add` action: premium 9500, default contractor code, status `신청`,
no approval and no start/end yet. -/
def sampleApp : InsuranceApplication :=
  { id := 1, createdAt := 0, desiredStartDate := some 0, startAt := none,
    endAt := none, approvedAt := none, insuredCode := some "1234567890",
    contractorCode := some "부산자동차매매사업자조합", carPlate := some "12가3456",
    vin := some "VIN0001", carName := some "car", carRegisteredAt := some 0,
    premium := 9500, status := Status.submitted, memo := none,
    insurancePolicyPath := none, insurancePolicyUrl := none,
    createdByMemberId := some 1, partnerGroupId := none }

/-- A cold record for the single-pass scenario: association-approved at
instant `T = 0`, desired start date `D = day 0`, start/end still unset,
evaluated at `now = T + 45 days = 3888000`. -/
def capp1 : InsuranceApplication :=
  { sampleApp with status := Status.associationApproved, approvedAt := some 0 }

/-- What one evaluator call at `now = 3888000` makes of `capp1`:
enrolled, with `start_at = midnight(day 0) = 0` and
`end_at = 0 + 30 days = 2592000` — but not terminated. -/
def capp1After : InsuranceApplication :=
  { capp1 with status := Status.enrolled, startAt := some 0,
               endAt := some 2592000 }

/-- What a second evaluator call at the same `now` makes of `capp1After`:
now the captured `end_at` is visible and the record terminates. -/
def capp1After2 : InsuranceApplication :=
  { capp1After with status := Status.terminated }

/-- A record whose enrollment gate fires while `desired_start_date` is
null and `start_at` unset: the seeding raises. -/
def capp3 : InsuranceApplication :=
  { sampleApp with status := Status.associationApproved, approvedAt := some 0,
                   desiredStartDate := none }

/-- An association-approved record whose `end_at` (`100`) already passed
while the 2-hour gate (`approved_at = 10000000`) has not: evaluated at
`now = 200`, step 2 fires and status leaves `조합승인` early. -/
def capp6 : InsuranceApplication :=
  { sampleApp with status := Status.associationApproved,
                   approvedAt := some 10000000, startAt := some 0,
                   endAt := some 100 }

/-- An approved record, for exercising the deletion branches. -/
def capp9 : InsuranceApplication :=
  { sampleApp with approvedAt := some 1000 }

/-- A still-submitted, never-approved record that nevertheless carries an
elapsed `end_at` (such `end_at` values can be entered through the admin
`save` action, `src/app.py:2488-2489`). -/
def capp10 : InsuranceApplication :=
  { sampleApp with endAt := some 50 }

/-! ## Structural lemmas about the evaluator -/

/-- Unfolding of `recomputeStatus` as step 1 followed by step 2 on the
entry-time `end_at`. -/
theorem recomputeStatus_def (now : Int) (s : InsuranceApplication) :
    recomputeStatus now s =
      Except.map (recomputeStep2 now (ensureAware s.endAt))
        (recomputeStep1 now (ensureAware s.approvedAt) s) := rfl

/-- Case analysis of step 1: it leaves the record unchanged, or (on a
record that is submitted or association-approved) promotes the status to
enrolled — possibly seeding `start_at`/`end_at` — or raises `TypeError`. -/
theorem recomputeStep1_cases (now : Int) (a : Option Int) (s : InsuranceApplication) :
    recomputeStep1 now a s = Except.ok s ∨
    ((s.status = Status.submitted ∨ s.status = Status.associationApproved) ∧
      (recomputeStep1 now a s = Except.ok { s with status := Status.enrolled } ∨
      (∃ d, s.desiredStartDate = some d ∧ s.startAt = none ∧
        recomputeStep1 now a s = Except.ok { s with
                                             status := Status.enrolled,
                                             startAt := some (midnightKST d),
                                             endAt := some (midnightKST d + 30 * 86400) }) ∨
      (s.startAt = none ∧ s.desiredStartDate = none ∧
        recomputeStep1 now a s = Except.error RecomputeError.typeError))) := by
  unfold recomputeStep1
  split_ifs with h1
  · cases a with
    | none => simp
    | some t =>
      simp only
      split_ifs with ht hs
      · cases hd : s.desiredStartDate with
        | none => simp [hd, hs, h1]
        | some d =>
          refine Or.inr ⟨h1, Or.inr (Or.inl ⟨d, rfl, hs, ?_⟩)⟩
          simp [hd]
      · simp [h1]
      · simp
  · simp

/-- Step 1 is the identity on records that are neither submitted nor
association-approved. -/
theorem recomputeStep1_not_active (now : Int) (a : Option Int)
    (s : InsuranceApplication)
    (h : ¬(s.status = Status.submitted ∨ s.status = Status.associationApproved)) :
    recomputeStep1 now a s = Except.ok s := by
  unfold recomputeStep1
  simp [h]

/-- Step 2 either leaves the record unchanged or only sets the status to
terminated. -/
theorem recomputeStep2_cases (now : Int) (e : Option Int) (r : InsuranceApplication) :
    recomputeStep2 now e r = r ∨
    recomputeStep2 now e r = { r with status := Status.terminated } := by
  cases e with
  | none => exact Or.inl rfl
  | some t =>
    by_cases h : t ≤ now
    · exact Or.inr (by unfold recomputeStep2; simp [h])
    · exact Or.inl (by unfold recomputeStep2; simp [h])

/-- Step 2 fires exactly when the captured `end_at` exists and has
passed. -/
theorem recomputeStep2_fires (now e : Int) (r : InsuranceApplication)
    (h : e ≤ now) :
    recomputeStep2 now (some e) r = { r with status := Status.terminated } := by
  unfold recomputeStep2
  simp [h]

/-- Step 2 is the identity when the captured `end_at` has not passed. -/
theorem recomputeStep2_skips (now : Int) (e : Option Int) (r : InsuranceApplication)
    (h : ∀ t, e = some t → now < t) :
    recomputeStep2 now e r = r := by
  unfold recomputeStep2
  cases e with
  | none => rfl
  | some t => simp [Int.not_le.mpr (h t rfl)]

/-- Overwriting `status` with its current value is the identity. -/
theorem withStatus_self (r : InsuranceApplication) (st : Status)
    (h : r.status = st) : { r with status := st } = r := by
  cases r
  simp_all

/-- Evaluation succeeds exactly when step 1 does, and then its
result is step 2 applied to step 1's output. -/
theorem recomputeStatus_ok_iff (now : Int) (s s' : InsuranceApplication) :
    recomputeStatus now s = Except.ok s' ↔
    ∃ r, recomputeStep1 now (ensureAware s.approvedAt) s = Except.ok r ∧
         recomputeStep2 now (ensureAware s.endAt) r = s' := by
  rw [recomputeStatus_def]
  cases h : recomputeStep1 now (ensureAware s.approvedAt) s with
  | error e => simp [Except.map]
  | ok r => simp [Except.map]

/-- Every status sits at level at most 3 of the lifecycle order. -/
theorem Status.ord_le_three (st : Status) : st.ord ≤ 3 := by
  cases st <;> simp [Status.ord]

/-- A successful evaluation leaves the status alone, terminates, or
enrolls a submitted/association-approved record. -/
theorem recomputeStatus_status_cases (now : Int) (s s' : InsuranceApplication)
    (h : recomputeStatus now s = Except.ok s') :
    s'.status = s.status ∨ s'.status = Status.terminated ∨
    (s'.status = Status.enrolled ∧
      (s.status = Status.submitted ∨ s.status = Status.associationApproved)) := by
  obtain ⟨r, h1, h2⟩ := (recomputeStatus_ok_iff now s s').mp h
  rcases recomputeStep2_cases now (ensureAware s.endAt) r with hh | hh
  all_goals rw [hh] at h2
  · subst h2
    rcases recomputeStep1_cases now (ensureAware s.approvedAt) s with
      hc | ⟨hst, hc | ⟨d, hd, hs0, hc⟩ | ⟨hs0, hd, hc⟩⟩ <;> rw [hc] at h1
    · exact Or.inl (by cases h1; rfl)
    · cases h1
      exact Or.inr (Or.inr ⟨rfl, hst⟩)
    · cases h1
      exact Or.inr (Or.inr ⟨rfl, hst⟩)
    · cases h1
  · subst h2
    exact Or.inr (Or.inl rfl)

/-! ## Claim theorems -/

/-- C5 — Status monotonicity: a single `recompute_status` call never
moves the status backward in the order 신청 < 조합승인 < 가입 < 종료, and
consequently along any sequence of evaluator calls (in particular calls
at non-decreasing `now`) the observed statuses are non-decreasing. -/
theorem claim5_status_monotone :
    (∀ (s : InsuranceApplication) (now : Int) (s' : InsuranceApplication),
      recomputeStatus now s = Except.ok s' → s.status.ord ≤ s'.status.ord) ∧
    (∀ (nows : List Int) (s s' : InsuranceApplication),
      recomputeSeq nows s = Except.ok s' → s.status.ord ≤ s'.status.ord) := by
  have hsingle : ∀ (s : InsuranceApplication) (now : Int) (s' : InsuranceApplication),
      recomputeStatus now s = Except.ok s' → s.status.ord ≤ s'.status.ord := by
    intro s now s' h
    rcases recomputeStatus_status_cases now s s' h with hc | hc | ⟨hc, hst⟩
    · rw [hc]
    · rw [hc]
      exact Status.ord_le_three s.status
    · rw [hc]
      rcases hst with hst | hst <;> rw [hst] <;> simp [Status.ord]
  refine ⟨hsingle, ?_⟩
  intro nows
  induction nows with
  | nil =>
    intro s s' h
    simp only [recomputeSeq, List.foldlM, pure, Except.pure, Except.ok.injEq] at h
    rw [h]
  | cons n ns ih =>
    intro s s' h
    rw [recomputeSeq, List.foldlM_cons] at h
    cases ha : recomputeStatus n s with
    | error e =>
      rw [ha] at h
      cases h
    | ok a =>
      rw [ha] at h
      have hrest : recomputeSeq ns a = Except.ok s' := h
      exact le_trans (hsingle s n a ha) (ih a s' hrest)

/-- Step 2 never touches `start_at` or `end_at`, nor any field other than
`status`. -/
theorem recomputeStep2_frame (now : Int) (e : Option Int)
    (r : InsuranceApplication) :
    (recomputeStep2 now e r).startAt = r.startAt ∧
    (recomputeStep2 now e r).endAt = r.endAt ∧
    (recomputeStep2 now e r).id = r.id ∧
    (recomputeStep2 now e r).createdAt = r.createdAt ∧
    (recomputeStep2 now e r).desiredStartDate = r.desiredStartDate ∧
    (recomputeStep2 now e r).approvedAt = r.approvedAt ∧
    (recomputeStep2 now e r).insuredCode = r.insuredCode ∧
    (recomputeStep2 now e r).contractorCode = r.contractorCode ∧
    (recomputeStep2 now e r).carPlate = r.carPlate ∧
    (recomputeStep2 now e r).vin = r.vin ∧
    (recomputeStep2 now e r).carName = r.carName ∧
    (recomputeStep2 now e r).carRegisteredAt = r.carRegisteredAt ∧
    (recomputeStep2 now e r).premium = r.premium ∧
    (recomputeStep2 now e r).memo = r.memo ∧
    (recomputeStep2 now e r).insurancePolicyPath = r.insurancePolicyPath ∧
    (recomputeStep2 now e r).insurancePolicyUrl = r.insurancePolicyUrl ∧
    (recomputeStep2 now e r).createdByMemberId = r.createdByMemberId ∧
    (recomputeStep2 now e r).partnerGroupId = r.partnerGroupId := by
  rcases recomputeStep2_cases now e r with hh | hh <;> rw [hh] <;> simp

/-- C7 — Enrollment seeding and the 30-day invariant: when the enrollment
transition fires with `start_at` unset (and `desired_start_date` present),
the call succeeds and sets `start_at` to midnight of `desired_start_date`
in KST and `end_at` to exactly 30 days later; and whenever a call turns an
unset `start_at` into set `start_at`/`end_at`, the difference is exactly
30 days. -/
theorem claim7_enrollment_seeding :
    (∀ (s : InsuranceApplication) (now t d : Int),
      (s.status = Status.submitted ∨ s.status = Status.associationApproved) →
      s.approvedAt = some t → t + 7200 ≤ now →
      s.startAt = none → s.desiredStartDate = some d →
      ∃ s', recomputeStatus now s = Except.ok s' ∧
        s'.startAt = some (midnightKST d) ∧
        s'.endAt = some (midnightKST d + 30 * 86400)) ∧
    (∀ (s : InsuranceApplication) (now : Int) (s' : InsuranceApplication) (a b : Int),
      recomputeStatus now s = Except.ok s' → s.startAt = none →
      s'.startAt = some a → s'.endAt = some b → b - a = 30 * 86400) := by
  constructor
  · intro s now t d hst happ hgate hstart hd
    have h1 : recomputeStep1 now (ensureAware s.approvedAt) s =
        Except.ok { s with status := Status.enrolled,
                           startAt := some (midnightKST d),
                           endAt := some (midnightKST d + 30 * 86400) } := by
      unfold recomputeStep1 ensureAware
      rw [happ]
      simp [hst, hgate, hstart, hd]
    refine ⟨recomputeStep2 now (ensureAware s.endAt)
      { s with status := Status.enrolled,
               startAt := some (midnightKST d),
               endAt := some (midnightKST d + 30 * 86400) },
      (recomputeStatus_ok_iff now s _).mpr ⟨_, h1, rfl⟩, ?_, ?_⟩
    · exact (recomputeStep2_frame now (ensureAware s.endAt) _).1
    · exact (recomputeStep2_frame now (ensureAware s.endAt) _).2.1
  · intro s now s' a b h hstart ha hb
    obtain ⟨r, h1, h2⟩ := (recomputeStatus_ok_iff now s s').mp h
    have hfr := recomputeStep2_frame now (ensureAware s.endAt) r
    rw [h2] at hfr
    rcases recomputeStep1_cases now (ensureAware s.approvedAt) s with
      hc | ⟨_, hc | ⟨d, hd, hs0, hc⟩ | ⟨hs0, hd, hc⟩⟩ <;> rw [hc] at h1
    · cases h1
      rw [hfr.1, hstart] at ha
      cases ha
    · cases h1
      rw [hfr.1] at ha
      simp at ha
      rw [hstart] at ha
      cases ha
    · cases h1
      rw [hfr.1] at ha
      rw [hfr.2.1] at hb
      simp at ha hb
      omega
    · cases h1

/-- C8 — Start/end idempotence and frame condition: once `start_at` is
set, no evaluator call alters `start_at` or `end_at` (and none can raise);
and a call writes no field of the record other than `status`, `start_at`
and `end_at` — restoring those three fields recovers the original
record. -/
theorem claim8_start_end_frame :
    (∀ (s : InsuranceApplication) (now t : Int), s.startAt = some t →
      ∃ s', recomputeStatus now s = Except.ok s' ∧
        s'.startAt = s.startAt ∧ s'.endAt = s.endAt) ∧
    (∀ (s : InsuranceApplication) (now : Int) (s' : InsuranceApplication),
      recomputeStatus now s = Except.ok s' →
      { s' with status := s.status, startAt := s.startAt,
                endAt := s.endAt } = s) := by
  constructor
  · intro s now t hstart
    rcases recomputeStep1_cases now (ensureAware s.approvedAt) s with
      hc | ⟨_, hc | ⟨d, hd, hs0, hc⟩ | ⟨hs0, hd, hc⟩⟩
    · refine ⟨recomputeStep2 now (ensureAware s.endAt) s,
        (recomputeStatus_ok_iff now s _).mpr ⟨s, hc, rfl⟩, ?_, ?_⟩
      · exact (recomputeStep2_frame now (ensureAware s.endAt) s).1
      · exact (recomputeStep2_frame now (ensureAware s.endAt) s).2.1
    · refine ⟨recomputeStep2 now (ensureAware s.endAt)
        { s with status := Status.enrolled },
        (recomputeStatus_ok_iff now s _).mpr ⟨_, hc, rfl⟩, ?_, ?_⟩
      · exact (recomputeStep2_frame now (ensureAware s.endAt) _).1
      · exact (recomputeStep2_frame now (ensureAware s.endAt) _).2.1
    · rw [hs0] at hstart
      cases hstart
    · rw [hs0] at hstart
      cases hstart
  · intro s now s' h
    obtain ⟨r, h1, h2⟩ := (recomputeStatus_ok_iff now s s').mp h
    rcases recomputeStep2_cases now (ensureAware s.endAt) r with hh | hh <;>
      rw [hh] at h2 <;> subst h2 <;>
      rcases recomputeStep1_cases now (ensureAware s.approvedAt) s with
        hc | ⟨_, hc | ⟨d, hd, hs0, hc⟩ | ⟨hs0, hd, hc⟩⟩ <;>
      rw [hc] at h1 <;> cases h1 <;> (cases s; rfl)

/-- C10 — The termination step is independent of the current status and of
approval: whenever `end_at` has passed at entry, any successful call ends
with status 종료 — and on every record respecting the schema's
`desired_start_date NOT NULL` constraint the call does succeed; in
particular a submitted, never-approved record with an elapsed `end_at`
jumps directly to 종료 in one call. -/
theorem claim10_termination_unconditional :
    (∀ (s : InsuranceApplication) (now e : Int) (s' : InsuranceApplication),
      s.endAt = some e → e ≤ now → recomputeStatus now s = Except.ok s' →
      s'.status = Status.terminated) ∧
    (∀ (s : InsuranceApplication) (now e : Int),
      s.endAt = some e → e ≤ now → s.desiredStartDate ≠ none →
      ∃ s', recomputeStatus now s = Except.ok s' ∧
        s'.status = Status.terminated) ∧
    (∀ (s : InsuranceApplication) (now e : Int),
      s.endAt = some e → e ≤ now → s.status = Status.submitted →
      s.approvedAt = none →
      recomputeStatus now s = Except.ok { s with status := Status.terminated }) := by
  have hfirst : ∀ (s : InsuranceApplication) (now e : Int)
      (s' : InsuranceApplication),
      s.endAt = some e → e ≤ now → recomputeStatus now s = Except.ok s' →
      s'.status = Status.terminated := by
    intro s now e s' hend hle h
    obtain ⟨r, h1, h2⟩ := (recomputeStatus_ok_iff now s s').mp h
    rw [show ensureAware s.endAt = some e from by rw [ensureAware, hend],
        recomputeStep2_fires now e r hle] at h2
    rw [← h2]
  refine ⟨hfirst, ?_, ?_⟩
  · intro s now e hend hle hd
    rcases recomputeStep1_cases now (ensureAware s.approvedAt) s with
      hc | ⟨_, hc | ⟨d, hd', hs0, hc⟩ | ⟨hs0, hd', hc⟩⟩
    · exact ⟨_, (recomputeStatus_ok_iff now s _).mpr ⟨s, hc, rfl⟩,
        hfirst s now e _ hend hle
          ((recomputeStatus_ok_iff now s _).mpr ⟨s, hc, rfl⟩)⟩
    · exact ⟨_, (recomputeStatus_ok_iff now s _).mpr ⟨_, hc, rfl⟩,
        hfirst s now e _ hend hle
          ((recomputeStatus_ok_iff now s _).mpr ⟨_, hc, rfl⟩)⟩
    · exact ⟨_, (recomputeStatus_ok_iff now s _).mpr ⟨_, hc, rfl⟩,
        hfirst s now e _ hend hle
          ((recomputeStatus_ok_iff now s _).mpr ⟨_, hc, rfl⟩)⟩
    · exact absurd hd' hd
  · intro s now e hend hle hst happ
    have h1 : recomputeStep1 now (ensureAware s.approvedAt) s = Except.ok s := by
      unfold recomputeStep1 ensureAware
      rw [happ]
      simp
    refine (recomputeStatus_ok_iff now s _).mpr ⟨s, h1, ?_⟩
    rw [show ensureAware s.endAt = some e from by rw [ensureAware, hend]]
    exact recomputeStep2_fires now e s hle

/-- Witness for C5: the cold approved record strictly advances (조합승인,
level 1, to 가입, level 2) at `now = 3888000`. -/
theorem claim5_status_monotone_witness :
    capp1.status.ord ≤ capp1After.status.ord :=
  claim5_status_monotone.1 capp1 3888000 capp1After rfl

/-- Witness for C7: seeding on `capp1` at `now = 3888000` sets
`start_at = midnight(day 0) = 0` and `end_at = 2592000`. -/
theorem claim7_enrollment_seeding_witness :
    (capp1.status = Status.submitted ∨ capp1.status = Status.associationApproved) ∧
    capp1.approvedAt = some 0 ∧ ((0 : Int) + 7200 ≤ 3888000) ∧
    capp1.startAt = none ∧ capp1.desiredStartDate = some 0 ∧
    ∃ s', recomputeStatus 3888000 capp1 = Except.ok s' ∧
      s'.startAt = some (midnightKST 0) ∧
      s'.endAt = some (midnightKST 0 + 30 * 86400) :=
  ⟨by decide, by decide, by decide, by decide, by decide,
   claim7_enrollment_seeding.1 capp1 3888000 0 0 (by decide) (by decide)
     (by decide) (by decide) (by decide)⟩

/-- Witness for C8: on `capp6`, whose `start_at = some 0` is already set,
the call at `now = 200` keeps `start_at` and `end_at`. -/
theorem claim8_start_end_frame_witness :
    capp6.startAt = some 0 ∧
    ∃ s', recomputeStatus 200 capp6 = Except.ok s' ∧
      s'.startAt = capp6.startAt ∧ s'.endAt = capp6.endAt :=
  ⟨by decide, claim8_start_end_frame.1 capp6 200 0 (by decide)⟩

/-- Witness for C10: `capp10` is submitted and never approved but its
`end_at = 50` has passed at `now = 100`, so one call terminates it. -/
theorem claim10_termination_unconditional_witness :
    capp10.endAt = some 50 ∧ ((50 : Int) ≤ 100) ∧
    capp10.status = Status.submitted ∧ capp10.approvedAt = none ∧
    recomputeStatus 100 capp10 =
      Except.ok { capp10 with status := Status.terminated } :=
  ⟨by decide, by decide, by decide, by decide,
   claim10_termination_unconditional.2.2 capp10 100 50 (by decide) (by decide)
     (by decide) (by decide)⟩

/-- C1 counterexample: the cold record `capp1` (조합승인 at `T = 0`,
desired day 0, start/end unset) evaluated once at `T + 45 days` comes out
가입 — not 종료 as the claim states — because the termination check reads
the `end_at` captured before seeding. -/
theorem claim1_counterexample :
    capp1.status = Status.associationApproved ∧ capp1.approvedAt = some 0 ∧
    capp1.desiredStartDate = some 0 ∧ capp1.startAt = none ∧
    capp1.endAt = none ∧ ((0 : Int) + 7200 ≤ 3888000) ∧
    (midnightKST 0 + 30 * 86400 ≤ (3888000 : Int)) ∧
    recomputeStatus 3888000 capp1 = Except.ok capp1After ∧
    capp1After.status ≠ Status.terminated :=
  ⟨by decide, by decide, by decide, by decide, by decide, by decide,
   by decide, rfl, by decide⟩

/-- C1 amended — Single-pass transition stops at enrolled: with
`approved_at = T`, `desired_start_date = D` and start/end unset, one call
at a time past both `T + 2h` and `midnight(D) + 30 days` yields status
가입 with `start_at = midnight(D)` and `end_at = start_at + 30 days`
backfilled; 종료 is reached only by a second call at the same `now`,
because step 2 consults the `end_at` captured at entry, before seeding. -/
theorem claim1_single_pass_amended :
    ∀ (s : InsuranceApplication) (now t d : Int),
      (s.status = Status.submitted ∨ s.status = Status.associationApproved) →
      s.approvedAt = some t → s.desiredStartDate = some d →
      s.startAt = none → s.endAt = none →
      t + 7200 ≤ now → midnightKST d + 30 * 86400 ≤ now →
      ∃ s1, recomputeStatus now s = Except.ok s1 ∧
        s1.status = Status.enrolled ∧
        s1.startAt = some (midnightKST d) ∧
        s1.endAt = some (midnightKST d + 30 * 86400) ∧
        recomputeStatus now s1 = Except.ok { s1 with status := Status.terminated } := by
  intro s now t d hst happ hd hstart hend hgate hpast
  refine ⟨{ s with status := Status.enrolled,
                   startAt := some (midnightKST d),
                   endAt := some (midnightKST d + 30 * 86400) },
    ?_, rfl, rfl, rfl, ?_⟩
  · have h1 : recomputeStep1 now (ensureAware s.approvedAt) s =
        Except.ok { s with status := Status.enrolled,
                           startAt := some (midnightKST d),
                           endAt := some (midnightKST d + 30 * 86400) } := by
      unfold recomputeStep1 ensureAware
      rw [happ]
      simp [hst, hgate, hstart, hd]
    refine (recomputeStatus_ok_iff now s _).mpr ⟨_, h1, ?_⟩
    rw [show ensureAware s.endAt = none from hend]
    rfl
  · have h1 : recomputeStep1 now
        (ensureAware ({ s with status := Status.enrolled,
                               startAt := some (midnightKST d),
                               endAt := some (midnightKST d + 30 * 86400) }).approvedAt)
        { s with status := Status.enrolled,
                 startAt := some (midnightKST d),
                 endAt := some (midnightKST d + 30 * 86400) } =
        Except.ok { s with status := Status.enrolled,
                           startAt := some (midnightKST d),
                           endAt := some (midnightKST d + 30 * 86400) } :=
      recomputeStep1_not_active now _ _ (by simp)
    refine (recomputeStatus_ok_iff now _ _).mpr ⟨_, h1, ?_⟩
    exact recomputeStep2_fires now (midnightKST d + 30 * 86400) _ hpast

/-- Witness for C1 amended: `capp1` at `now = 3888000`. -/
theorem claim1_single_pass_amended_witness :
    ∃ s1, recomputeStatus 3888000 capp1 = Except.ok s1 ∧
      s1.status = Status.enrolled ∧
      s1.startAt = some (midnightKST 0) ∧
      s1.endAt = some (midnightKST 0 + 30 * 86400) ∧
      recomputeStatus 3888000 s1 =
        Except.ok { s1 with status := Status.terminated } :=
  claim1_single_pass_amended capp1 3888000 0 0 (by decide) (by decide)
    (by decide) (by decide) (by decide) (by decide) (by decide)

/-- After a successful call, step 1 of an immediately repeated call (same
`now`) is the identity: either the record left the 신청/조합승인 band, or
it is unchanged and step 1 already declined once. -/
theorem recomputeStep1_second (now : Int) (s s1 : InsuranceApplication)
    (h : recomputeStatus now s = Except.ok s1) :
    recomputeStep1 now (ensureAware s1.approvedAt) s1 = Except.ok s1 := by
  by_cases hs : s1.status = Status.submitted ∨ s1.status = Status.associationApproved
  · obtain ⟨r, h1, h2⟩ := (recomputeStatus_ok_iff now s s1).mp h
    rcases recomputeStep2_cases now (ensureAware s.endAt) r with hh | hh <;>
      rw [hh] at h2
    · subst h2
      rcases recomputeStep1_cases now (ensureAware s.approvedAt) s with
        hc | ⟨hst, hc | ⟨d, hd, hs0, hc⟩ | ⟨hs0, hd, hc⟩⟩ <;> rw [hc] at h1 <;>
        cases h1
      · exact hc
      · simp at hs
      · simp at hs
    · subst h2
      simp at hs
  · exact recomputeStep1_not_active now _ s1 hs

/-- C2 counterexample to evaluator idempotence: evaluating `capp1` at
`now = 3888000` gives `capp1After` (가입, end seeded in the past), and an
immediate second call at the same `now` changes it again, to 종료. -/
theorem claim2_counterexample :
    recomputeStatus 3888000 capp1 = Except.ok capp1After ∧
    recomputeStatus 3888000 capp1After = Except.ok capp1After2 ∧
    capp1After2 ≠ capp1After :=
  ⟨rfl, rfl, by decide⟩

/-- C2 amended — Idempotence up to the deferred termination: after a
successful call, an immediate second call at the same `now` either
changes nothing or (exactly when the first call seeded an already-elapsed
`end_at` that its own termination check could not see) only sets the
status to 종료; a third immediate call never changes anything. -/
theorem claim2_idempotence_amended :
    ∀ (s : InsuranceApplication) (now : Int) (s1 : InsuranceApplication),
      recomputeStatus now s = Except.ok s1 →
      ((recomputeStatus now s1 = Except.ok s1 ∨
        recomputeStatus now s1 =
          Except.ok { s1 with status := Status.terminated }) ∧
       ∀ s2, recomputeStatus now s1 = Except.ok s2 →
         recomputeStatus now s2 = Except.ok s2) := by
  intro s now s1 h
  have hstep1 := recomputeStep1_second now s s1 h
  have hcall2 : recomputeStatus now s1 =
      Except.ok (recomputeStep2 now (ensureAware s1.endAt) s1) :=
    (recomputeStatus_ok_iff now s1 _).mpr ⟨s1, hstep1, rfl⟩
  constructor
  · rcases recomputeStep2_cases now (ensureAware s1.endAt) s1 with hh | hh <;>
      rw [hh] at hcall2
    · exact Or.inl hcall2
    · exact Or.inr hcall2
  · intro s2 h2
    rw [hcall2] at h2
    cases h2
    rcases recomputeStep2_cases now (ensureAware s1.endAt) s1 with hh | hh <;>
      rw [hh]
    · rw [hcall2, hh]
    · have hna : recomputeStep1 now
          (ensureAware ({ s1 with status := Status.terminated }).approvedAt)
          { s1 with status := Status.terminated } =
          Except.ok { s1 with status := Status.terminated } :=
        recomputeStep1_not_active now _ _ (by simp)
      have hc3 : recomputeStatus now { s1 with status := Status.terminated } =
          Except.ok (recomputeStep2 now
            (ensureAware ({ s1 with status := Status.terminated }).endAt)
            { s1 with status := Status.terminated }) :=
        (recomputeStatus_ok_iff now _ _).mpr ⟨_, hna, rfl⟩
      rcases recomputeStep2_cases now
          (ensureAware ({ s1 with status := Status.terminated }).endAt)
          { s1 with status := Status.terminated } with hk | hk
      · rw [hc3, hk]
      · rw [hc3, hk, withStatus_self _ _ rfl]

/-- Witness for C2 amended: applied to the first call on `capp1`; the
second call either repeats the result or only terminates it. -/
theorem claim2_idempotence_amended_witness :
    recomputeStatus 3888000 capp1After = Except.ok capp1After ∨
    recomputeStatus 3888000 capp1After =
      Except.ok { capp1After with status := Status.terminated } :=
  (claim2_idempotence_amended capp1 3888000 capp1After rfl).1

/-- C3 counterexample: on `capp3` (조합승인, approved at 0, null
`desired_start_date`, `start_at` unset) the evaluator at `now = 7200`
raises `TypeError` instead of skipping the seeding. -/
theorem claim3_counterexample :
    capp3.status = Status.associationApproved ∧ capp3.approvedAt = some 0 ∧
    ((0 : Int) + 7200 ≤ 7200) ∧ capp3.desiredStartDate = none ∧
    capp3.startAt = none ∧
    recomputeStatus 7200 capp3 = Except.error RecomputeError.typeError :=
  ⟨by decide, by decide, by decide, by decide, by decide, rfl⟩

/-- C3 amended — Null `desired_start_date` raises: whenever the enrollment
transition fires with `start_at` unset and `desired_start_date` null, the
evaluator raises `TypeError` (`datetime.combine(None, ...)`); the
transition is not skipped and the call is not a no-op. -/
theorem claim3_null_desired_amended :
    ∀ (s : InsuranceApplication) (now t : Int),
      (s.status = Status.submitted ∨ s.status = Status.associationApproved) →
      s.approvedAt = some t → t + 7200 ≤ now →
      s.desiredStartDate = none → s.startAt = none →
      recomputeStatus now s = Except.error RecomputeError.typeError := by
  intro s now t hst happ hgate hd hstart
  have h1 : recomputeStep1 now (ensureAware s.approvedAt) s =
      Except.error RecomputeError.typeError := by
    unfold recomputeStep1 ensureAware
    rw [happ]
    simp [hst, hgate, hstart, hd]
  rw [recomputeStatus_def, h1]
  rfl

/-- Witness for C3 amended: `capp3` at `now = 7200`. -/
theorem claim3_null_desired_amended_witness :
    recomputeStatus 7200 capp3 = Except.error RecomputeError.typeError :=
  claim3_null_desired_amended capp3 7200 0 (by decide) (by decide) (by decide)
    (by decide) (by decide)

/-- A successful call that does not change the status changes nothing at
all: every `start_at`/`end_at` write is accompanied by a status write. -/
theorem recomputeStatus_eq_of_status_eq (now : Int)
    (s s' : InsuranceApplication) (h : recomputeStatus now s = Except.ok s')
    (hst : s'.status = s.status) : s' = s := by
  obtain ⟨r, h1, h2⟩ := (recomputeStatus_ok_iff now s s').mp h
  rcases recomputeStep2_cases now (ensureAware s.endAt) r with hh | hh <;>
    rw [hh] at h2 <;> subst h2 <;>
    rcases recomputeStep1_cases now (ensureAware s.approvedAt) s with
      hc | ⟨hss, hc | ⟨d, hd, hs0, hc⟩ | ⟨hs0, hd, hc⟩⟩ <;>
    rw [hc] at h1 <;> cases h1
  · rfl
  · simp at hst
    rcases hss with hss | hss <;> rw [hss] at hst <;> cases hst
  · simp at hst
    rcases hss with hss | hss <;> rw [hss] at hst <;> cases hst
  · exact withStatus_self s Status.terminated (by simpa using hst.symm)
  · simp at hst
    rcases hss with hss | hss <;> rw [hss] at hst <;> cases hst
  · simp at hst
    rcases hss with hss | hss <;> rw [hss] at hst <;> cases hst

/-- C4 counterexample: at `now = 3888000` the call on `capp1` changes the
record, yet the Python method's return value is `None` — no boolean
changed-flag is returned to the caller. -/
theorem claim4_counterexample :
    recomputeStatus 3888000 capp1 = Except.ok capp1After ∧
    capp1After ≠ capp1 ∧
    recomputeStatusReturn 3888000 capp1 = none ∧
    recomputeStatusReturn 3888000 capp1 ≠ some true ∧
    recomputeStatusReturn 3888000 capp1 ≠ some false :=
  ⟨rfl, by decide, rfl, by decide, by decide⟩

/-- C4 amended — Evaluator interface: `recompute_status` reads the clock
itself, mutates the record in place and returns `None`, not a changed
flag; the caller of the listing loop derives `changed` by comparing
`status` before and after, and that comparison is sound and complete:
it reports `true` exactly when the call changed the record at all. -/
theorem claim4_interface_amended :
    ∀ (s : InsuranceApplication) (now : Int) (s' : InsuranceApplication),
      recomputeStatus now s = Except.ok s' →
      (recomputeStatusReturn now s = none ∧
       (callerDetectsChange now s s' = true ↔ s' ≠ s)) := by
  intro s now s' h
  refine ⟨rfl, ?_⟩
  unfold callerDetectsChange
  constructor
  · intro hb heq
    subst heq
    simp at hb
  · intro hne
    have : s'.status ≠ s.status := fun heq =>
      hne (recomputeStatus_eq_of_status_eq now s s' h heq)
    simp [this]

/-- Witness for C4 amended: the call on `capp1` at `now = 3888000`. -/
theorem claim4_interface_amended_witness :
    recomputeStatusReturn 3888000 capp1 = none ∧
    (callerDetectsChange 3888000 capp1 capp1After = true ↔
      capp1After ≠ capp1) :=
  claim4_interface_amended capp1 3888000 capp1After rfl

/-- C6 counterexample: `capp6` is 조합승인 with `approved_at = 10000000`
and an already-elapsed `end_at = 100`; evaluating at `now = 200`, well
before the 2-hour gate, does not leave the status unchanged — step 2
moves it to 종료. -/
theorem claim6_counterexample :
    capp6.status = Status.associationApproved ∧
    capp6.approvedAt = some 10000000 ∧
    ((200 : Int) < 10000000 + 7200) ∧
    statusOf (recomputeStatus 200 capp6) = some Status.terminated ∧
    statusOf (recomputeStatus 200 capp6) ≠ some Status.associationApproved :=
  ⟨by decide, by decide, by decide, rfl, by decide⟩

/-- C6 amended — 2-hour gate, provided termination is not simultaneously
due: for a 조합승인 record with `approved_at = t` whose `end_at` is unset
or still in the future, evaluating strictly before `t + 2h` changes
nothing at all, and any successful evaluation at `t + 2h` or later has
status 가입.  (Without the `end_at` proviso, step 2 can move the record
to 종료 even before the gate.) -/
theorem claim6_two_hour_gate_amended :
    ∀ (s : InsuranceApplication) (now t : Int),
      s.status = Status.associationApproved → s.approvedAt = some t →
      (∀ e, s.endAt = some e → now < e) →
      ((now < t + 7200 → recomputeStatus now s = Except.ok s) ∧
       (t + 7200 ≤ now → ∀ s', recomputeStatus now s = Except.ok s' →
         s'.status = Status.enrolled)) := by
  intro s now t hst happ hend
  constructor
  · intro hlt
    have h1 : recomputeStep1 now (ensureAware s.approvedAt) s = Except.ok s := by
      unfold recomputeStep1 ensureAware
      rw [happ]
      simp [hst, Int.not_le.mpr hlt]
    refine (recomputeStatus_ok_iff now s s).mpr
      ⟨s, h1, recomputeStep2_skips now (ensureAware s.endAt) s hend⟩
  · intro hge s' h
    obtain ⟨r, h1, h2⟩ := (recomputeStatus_ok_iff now s s').mp h
    rw [recomputeStep2_skips now (ensureAware s.endAt) r hend] at h2
    subst h2
    unfold recomputeStep1 ensureAware at h1
    rw [happ] at h1
    simp [hst, hge] at h1
    cases hsa : s.startAt with
    | some u =>
      rw [hsa] at h1
      simp at h1
      rw [← h1]
    | none =>
      rw [hsa] at h1
      cases hd : s.desiredStartDate with
      | some d =>
        rw [hd] at h1
        simp at h1
        rw [← h1]
      | none =>
        rw [hd] at h1
        cases h1

/-- Witness for C6 amended: `capp1` (조합승인, approved at 0, no
`end_at`) evaluated at `now = 100 < 7200` is returned unchanged. -/
theorem claim6_two_hour_gate_amended_witness :
    recomputeStatus 100 capp1 = Except.ok capp1 :=
  (claim6_two_hour_gate_amended capp1 100 0 rfl rfl
    (by simp [capp1, sampleApp])).1 (by decide)

/-- C9 counterexample: `capp9` has `approved_at` set, yet the
`/admin/insurance` delete action removes it — post-approval records are
deletable through the admin route. -/
theorem claim9_counterexample :
    capp9.approvedAt = some 1000 ∧ capp9.approvedAt ≠ none ∧
    adminInsuranceDeleteAction capp9 = none :=
  ⟨by decide, by decide, rfl⟩

/-- C9 amended — Deletion gating holds only for the user-facing route:
the `/insurance` delete action removes a row exactly when `approved_at`
is unset and otherwise leaves it in place, while the `/admin/insurance`
delete action removes the row unconditionally, approved or not. -/
theorem claim9_deletion_gating_amended :
    ∀ row : InsuranceApplication,
      (insuranceDeleteAction row = none ↔ row.approvedAt = none) ∧
      (row.approvedAt ≠ none → insuranceDeleteAction row = some row) ∧
      adminInsuranceDeleteAction row = none := by
  intro row
  unfold insuranceDeleteAction adminInsuranceDeleteAction
  by_cases h : row.approvedAt = none <;> simp [h]

/-- Witness for C9 amended: the approved row `capp9` survives the user
delete action; the admin delete action removes every row. -/
theorem claim9_deletion_gating_amended_witness :
    insuranceDeleteAction capp9 = some capp9 ∧
    adminInsuranceDeleteAction capp9 = none :=
  ⟨(claim9_deletion_gating_amended capp9).2.1 (by decide),
   (claim9_deletion_gating_amended capp9).2.2⟩
